import Mathlib

/-!
Verification of the bisbis10 restaurant-ordering service (TypeScript/Express/pg).

The definitions below are a shallow embedding of the repository's code:

* `findMissing`, `findForbidden`, `findUnrecognized` embed
  `src/lib/checkObjectProperties.ts`;
* `combinedOrderItems` embeds the order normalizer in
  `src/controllers/orderController.ts`;
* `validateIdParam`, `validateRestaurantReqBody`, `validateDishReqBody`,
  `validateIdInReqBody`, `validateOrderReqBody`, `validateDishIdParam`
  embed the middleware file;
* the `*Pipeline` / `*Handler` functions embed the Express route handlers
  (restaurants, ratings, orders controllers), with the pg transaction
  (`BEGIN`/statements/`COMMIT`, `ROLLBACK` on error) modelled by running a
  list of state transformers against a failure oracle `ok : ℕ → Bool`:
  a `false` entry means that statement raises, the handler rolls back and
  reports 500 with the original database state;
* `roundToDp` embeds `src/lib/helpers/roundToDp.ts` over an exact-rational
  model `fl` of IEEE-754 binary64 arithmetic (round to nearest, ties to
  even, 53-bit significand; subnormal underflow and overflow to infinity
  are outside the range exercised here and are not clamped).

JavaScript numbers are modelled as exact rationals `ℚ`; JSON payload values
as the variant type `JsVal`; a request body as an association list from
string keys to `Option JsVal`, where a `none` value models a key that is
present with value `undefined` (JS `Object.keys` still lists such a key,
but `body[key] === undefined` holds).
-/

namespace Bisbis

/-- A JSON-ish JavaScript value as seen by the validators. -/
inductive JsVal where
  | str (s : String)
  | num (q : ℚ)
  | boolean (b : Bool)
  | arr (elems : List JsVal)
  | obj (fields : List (String × JsVal))
  | null

/-- A request body: string keys to values; `none` models `undefined`. -/
abbrev Payload := List (String × Option JsVal)

/-- `Object.keys(body)` (insertion order). -/
def keysOf (body : Payload) : List String := body.map Prod.fst

/-- Association lookup: `none` = key absent, `some none` = key present with
value `undefined`, `some (some v)` = key present with value `v`. -/
def lookupKey (body : Payload) (k : String) : Option (Option JsVal) :=
  match body with
  | [] => none
  | (k2, v) :: rest => if k2 = k then some v else lookupKey rest k

/-- `body[k]` as JavaScript sees it: `none` means `body[k] === undefined`
(key absent, or present with value `undefined`). -/
def jsGet (body : Payload) (k : String) : Option JsVal :=
  (lookupKey body k).bind id

/-- From `src/lib/checkObjectProperties.ts`: the allow-listed property names
whose value in the body is `undefined`. -/
def findMissing (reqBody : Payload) (allowedProperties : List String) : List String :=
  allowedProperties.filter (fun property => (jsGet reqBody property).isNone)

/-- From `src/lib/checkObjectProperties.ts`: the forbid-listed property names
present as keys of the body (`Object.keys(...).includes(...)`). -/
def findForbidden (reqBody : Payload) (forbiddenProperties : List String) : List String :=
  forbiddenProperties.filter (fun property => (keysOf reqBody).contains property)

/-- From `src/lib/checkObjectProperties.ts`: the body keys belonging to
neither the allow-list nor the forbid-list. -/
def findUnrecognized (reqBody : Payload) (allowedProperties : List String)
    (forbiddenProperties : List String) : List String :=
  (keysOf reqBody).filter (fun property =>
    !(allowedProperties.contains property) && !(forbiddenProperties.contains property))

/-- True when a key is absent from the payload or present with an absent
(`undefined`) value. -/
def isAbsent : Option (Option JsVal) → Bool
  | none => true
  | some none => true
  | some (some _) => false

/-- Modelled from the spec: `missing(P,A)` = "exactly the elements of A
absent from P's keys or whose value is absent", in the order of `A`. -/
def missingSpec (P : Payload) (A : List String) : List String :=
  A.filter (fun a => isAbsent (lookupKey P a))

/-! ### Order items and the order normalizer -/

/-- An order line item (`src/types/types.ts`); numbers are JS numbers,
modelled as exact rationals (the validated values are positive integers,
whose arithmetic is exact in binary64 for the realistic range). -/
structure OrderItem where
  dishId : ℚ
  amount : ℚ
deriving DecidableEq

/-- `accumulator[existingItemIndex].amount += current.amount` where
`existingItemIndex` is the first index whose `dishId` matches: add `a` to
the amount of the first element with the given dish id. -/
def addToFirstMatch : List OrderItem → ℚ → ℚ → List OrderItem
  | [], _, _ => []
  | x :: xs, d, a =>
    if x.dishId = d then { x with amount := x.amount + a } :: xs
    else x :: addToFirstMatch xs d a

/-- One step of the `orderItems.reduce` in the POST /order handler
(`src/controllers/orderController.ts`): if some accumulated item already has
this dish id, add the amount to the first such item, otherwise push. -/
def combineStep (accumulator : List OrderItem) (current : OrderItem) : List OrderItem :=
  if accumulator.any (fun elem => elem.dishId == current.dishId) then
    addToFirstMatch accumulator current.dishId current.amount
  else
    accumulator ++ [current]

/-- `combinedOrderItems` from the POST /order handler: merge duplicate dish
ids, summing amounts into the first occurrence. -/
def combinedOrderItems (orderItems : List OrderItem) : List OrderItem :=
  orderItems.foldl combineStep []

/-- Total amount carried by a dish id across a list of order items. -/
def totalAmount (l : List OrderItem) (d : ℚ) : ℚ :=
  ((l.filter (fun x => x.dishId == d)).map OrderItem.amount).sum

/-- The dish ids of a list in first-occurrence order, skipping ids already
in `seen`. -/
def firstOccurrences (seen : List ℚ) : List OrderItem → List ℚ
  | [] => []
  | x :: xs =>
    if seen.contains x.dishId then firstOccurrences seen xs
    else x.dishId :: firstOccurrences (x.dishId :: seen) xs

/-- Modelled from the spec: merge items by dishId, the first occurrence of a
dishId determines its position, its amount is the sum over all occurrences. -/
def normalizeSpec (l : List OrderItem) : List OrderItem :=
  (firstOccurrences [] l).map (fun d => ⟨d, totalAmount l d⟩)

/-! ### Decimal strings

The service stores dish ids as decimal strings (`nextDishId.toString()`) and
route ids arrive as strings that PostgreSQL parses back to integers.  We
relate `Nat.repr` to a digit-fold evaluator to get the round trip. -/

/-- Numeric value of a decimal digit character. -/
def charToDigit (c : Char) : ℕ := c.toNat - 48

/-- Value of a decimal digit string (how PostgreSQL parses an all-digit id
string; 32-bit overflow of the INTEGER column is not modelled). -/
def digitsVal (l : List Char) : ℕ := l.foldl (fun a c => 10 * a + charToDigit c) 0

/-- The JS regex test `/\D/.test(id)`: does the string contain a character
outside `[0-9]`? -/
def hasNonDigit (s : String) : Bool := s.data.any (fun c => !c.isDigit)

/-! ### Exact-rational model of binary64 arithmetic (for `roundToDp`)

`fl q` is the IEEE-754 binary64 double nearest to `q` (round to nearest,
ties to even), represented exactly as a rational: the significand is scaled
to 53 bits from the floor of the base-2 logarithm of `|q|`.  Subnormal
underflow and overflow to infinity lie far outside the values exercised by
this service and are not clamped. -/

/-- Fuel-driven base-2 logarithm on naturals (structural recursion so that
the kernel can evaluate it). -/
def natLog2F : ℕ → ℕ → ℕ
  | 0, _ => 0
  | fuel + 1, n => if n < 2 then 0 else natLog2F fuel (n / 2) + 1

/-- `⌊log₂ n⌋` for `1 ≤ n` (0 at 0). -/
def natLog2 (n : ℕ) : ℕ := natLog2F n n

/-- `2 ^ e` over ℚ for an integer exponent, kernel-evaluable. -/
def pow2 (e : ℤ) : ℚ :=
  if 0 ≤ e then ((2 ^ e.toNat : ℕ) : ℚ) else ((2 ^ (-e).toNat : ℕ) : ℚ)⁻¹

/-- Floor of a rational as an integer. -/
def qfloor (q : ℚ) : ℤ := ⌊q⌋

/-- Round a rational to the nearest integer, ties to even. -/
def roundNearestEven (x : ℚ) : ℤ :=
  if x - qfloor x < 1 / 2 then qfloor x
  else if 1 / 2 < x - qfloor x then qfloor x + 1
  else if qfloor x % 2 = 0 then qfloor x else qfloor x + 1

/-- `⌊log₂ q⌋` for a positive rational. -/
def floorLog2Q (q : ℚ) : ℤ :=
  if 1 ≤ q then (natLog2 (qfloor q).toNat : ℤ)
  else
    let c := natLog2 (qfloor q⁻¹).toNat
    if q * pow2 c = 1 then -(c : ℤ) else -(c : ℤ) - 1

/-- Binary64 rounding of a positive rational: scale to a 53-bit significand,
round to nearest with ties to even, scale back. -/
def flPos (q : ℚ) : ℚ :=
  ((roundNearestEven (q * pow2 (52 - floorLog2Q q)) : ℚ)) * pow2 (floorLog2Q q - 52)

/-- Binary64 rounding of a rational. -/
def fl (q : ℚ) : ℚ :=
  if q = 0 then 0 else if 0 < q then flPos q else -flPos (-q)

/-- JS floating-point multiplication: exact product, rounded to binary64. -/
def jsMul (a b : ℚ) : ℚ := fl (a * b)

/-- JS floating-point division: exact quotient, rounded to binary64. -/
def jsDiv (a b : ℚ) : ℚ := fl (a / b)

/-- `Math.round`: nearest integral value, ties toward positive infinity
(exact per ECMA-262; the result is an integer, hence exactly representable
for the magnitudes arising here). -/
def jsRound (x : ℚ) : ℚ := (qfloor (x + 1 / 2) : ℚ)

/-- `roundToDp` from `src/lib/helpers/roundToDp.ts`:
`Math.round(num * 10 ** d) / 10 ** d`.  For the exponents used by the
service (`d = 2`), `10 ** d` is computed exactly by JS, so it is modelled
as the exact power. -/
def roundToDp (num : ℚ) (numOfDecimalPlaces : ℕ) : ℚ :=
  jsDiv (jsRound (jsMul num ((10 : ℚ) ^ numOfDecimalPlaces))) ((10 : ℚ) ^ numOfDecimalPlaces)

/-- Modelled from the spec: round to the nearest integer with ties rounded
half away from zero. -/
def roundHalfAwayFromZero (x : ℚ) : ℤ :=
  if 0 ≤ x then qfloor (x + 1 / 2) else -qfloor (-x + 1 / 2)

/-- The binary64 value of the JS literal `59.005`. -/
def double59005 : ℚ := fl (59005 / 1000)

/-! ### The data model and the relational store -/

/-- A dish (`src/types/types.ts`): its id is a string-encoded integer. -/
structure Dish where
  id : String
  name : String
  description : String
  price : ℚ
deriving DecidableEq

/-- A restaurant row (`restaurants` table in `src/db/init.sql`):
`averageRating` is nullable (`none` until rated), dishes are embedded JSON,
`nextDishId` is the monotonic dish-id counter. -/
structure Restaurant where
  id : ℕ
  name : String
  isKosher : Bool
  cuisines : List String
  averageRating : Option ℚ
  dishes : List Dish
  nextDishId : ℕ
deriving DecidableEq

/-- A rating row (`ratings` table); the serial primary key is irrelevant to
the claims and omitted. -/
structure RatingRow where
  restaurantId : ℕ
  rating : ℚ
deriving DecidableEq

/-- An order row (`orders` table); the UUID primary key is omitted. -/
structure OrderRow where
  restaurantId : ℕ
  orderItems : List OrderItem
deriving DecidableEq

/-- The relational store. -/
structure DB where
  restaurants : List Restaurant
  ratings : List RatingRow
  orders : List OrderRow
deriving DecidableEq

/-- `SELECT * FROM restaurants WHERE id = $1` (first matching row). -/
def findRestaurant (db : DB) (rid : ℕ) : Option Restaurant :=
  db.restaurants.find? (fun r => r.id == rid)

/-- `DELETE FROM ratings WHERE "restaurantId" = $1`. -/
def deleteRatingsStmt (rid : ℕ) (db : DB) : DB :=
  { db with ratings := db.ratings.filter (fun x => x.restaurantId != rid) }

/-- `DELETE FROM orders WHERE "restaurantId" = $1`. -/
def deleteOrdersStmt (rid : ℕ) (db : DB) : DB :=
  { db with orders := db.orders.filter (fun x => x.restaurantId != rid) }

/-- `DELETE FROM restaurants WHERE id = $1`. -/
def deleteRestaurantStmt (rid : ℕ) (db : DB) : DB :=
  { db with restaurants := db.restaurants.filter (fun r => r.id != rid) }

/-- `INSERT INTO ratings ("restaurantId", rating) VALUES ($1, $2)`. -/
def insertRatingStmt (rid : ℕ) (v : ℚ) (db : DB) : DB :=
  { db with ratings := db.ratings ++ [⟨rid, v⟩] }

/-- The ratings of one restaurant, in row order. -/
def ratingsOf (db : DB) (rid : ℕ) : List ℚ :=
  (db.ratings.filter (fun x => x.restaurantId == rid)).map RatingRow.rating

/-- `SELECT AVG(rating) FROM ratings WHERE "restaurantId" = $1`:
`NULL` on an empty set, otherwise the arithmetic mean. -/
def avgRating (db : DB) (rid : ℕ) : Option ℚ :=
  if (ratingsOf db rid).length = 0 then none
  else some ((ratingsOf db rid).sum / (ratingsOf db rid).length)

/-- `UPDATE restaurants SET "averageRating" = (SELECT AVG ...) WHERE id = $1`. -/
def updateAverageRatingStmt (rid : ℕ) (db : DB) : DB :=
  { db with
    restaurants := db.restaurants.map (fun r =>
      if r.id == rid then { r with averageRating := avgRating db rid } else r) }

/-- Run a list of statements inside a transaction against a failure oracle:
statement `i` succeeds iff `ok (i0 + i)`; the first failure aborts with
`none` (the handler then rolls back).  The trailing `COMMIT` is modelled as
an identity statement that may itself fail. -/
def runStmts : List (DB → DB) → (ℕ → Bool) → ℕ → DB → Option DB
  | [], _, _, db => some db
  | s :: rest, ok, i, db => if ok i then runStmts rest ok (i + 1) (s db) else none

/-! ### Middleware (the `middleware.ts` file)

Each middleware either falls through to the next step (`next`) or responds
immediately with a status (`stop`); responding with 200 from
`validateRestaurantReqBodyMiddleware` / `validateDishReqBodyMiddleware` on
an empty PUT body is a success short-circuit, not an error. -/

inductive MwResult where
  | next
  | stop (status : ℕ)
deriving DecidableEq

inductive Method where
  | post
  | put
deriving DecidableEq

/-- Outcome of `validateIdParamMiddleware`: reject the id string as
malformed (400, decided purely from the string, before any store access),
report the restaurant as not found (404, after the store lookup), or pass
the found restaurant on. -/
inductive IdCheck where
  | malformed
  | notFound
  | ok (r : Restaurant)
deriving DecidableEq

/-- `validateIdParamMiddleware`: 400 iff the route id is the literal `"0"`
or contains a non-digit character; otherwise PostgreSQL parses the digit
string numerically and the row is looked up (404 when absent). -/
def validateIdParam (id : String) (db : DB) : IdCheck :=
  if id = "0" ∨ hasNonDigit id then .malformed
  else
    match findRestaurant db (digitsVal id.data) with
    | none => .notFound
    | some r => .ok r

def restaurantAllowedProps : List String := ["name", "isKosher", "cuisines"]
def restaurantForbiddenProps : List String := ["id", "averageRating", "dishes", "nextDishId"]

/-- JS `String.prototype.trim`: strip leading and trailing whitespace
(modelled over the character list so that proofs can compute with it). -/
def jsTrim (s : String) : String :=
  ⟨((s.data.dropWhile Char.isWhitespace).reverse.dropWhile Char.isWhitespace).reverse⟩

/-- The `name` type check: present and (not a string, or empty after trim). -/
def nameViolation (body : Payload) : Bool :=
  match jsGet body "name" with
  | none => false
  | some (.str s) => (jsTrim s).length == 0
  | some _ => true

/-- The `isKosher` type check: present and not a boolean. -/
def kosherViolation (body : Payload) : Bool :=
  match jsGet body "isKosher" with
  | none => false
  | some (.boolean _) => false
  | some _ => true

/-- The `cuisines` type check: present and (not an array, or some element is
not a non-empty trimmed string). -/
def cuisinesTypeViolation (body : Payload) : Bool :=
  match jsGet body "cuisines" with
  | none => false
  | some (.arr l) =>
    l.any (fun c => match c with | .str s => (jsTrim s).length == 0 | _ => true)
  | some _ => true

/-- `Array.isArray(cuisines) && cuisines.length === 0`. -/
def cuisinesEmptyViolation (body : Payload) : Bool :=
  match jsGet body "cuisines" with
  | some (.arr l) => l.isEmpty
  | _ => false

/-- `validateRestaurantReqBodyMiddleware`: empty-body PUT short-circuits
with 200; POST requires all allowed properties; forbidden properties give
422; unrecognized ones 400; then per-field type and constraint checks. -/
def validateRestaurantReqBody (method : Method) (body : Payload) : MwResult :=
  if method = .put ∧ keysOf body = [] then .stop 200
  else if method = .post ∧ findMissing body restaurantAllowedProps ≠ [] then .stop 400
  else if findForbidden body restaurantForbiddenProps ≠ [] then .stop 422
  else if findUnrecognized body restaurantAllowedProps restaurantForbiddenProps ≠ [] then .stop 400
  else if nameViolation body then .stop 400
  else if kosherViolation body then .stop 400
  else if cuisinesTypeViolation body then .stop 400
  else if cuisinesEmptyViolation body then .stop 400
  else .next

def dishAllowedProps : List String := ["name", "description", "price"]
def dishForbiddenProps : List String := ["id"]

/-- The `description` type check: present and not a string (empty allowed). -/
def descriptionViolation (body : Payload) : Bool :=
  match jsGet body "description" with
  | none => false
  | some (.str _) => false
  | some _ => true

/-- The `price` check: `(price !== undefined && typeof price !== "number")
|| price < 0` — for an absent price the JS comparison `undefined < 0` is
false, so only a present price is range-checked. -/
def priceViolation (body : Payload) : Bool :=
  match jsGet body "price" with
  | none => false
  | some (.num q) => decide (q < 0)
  | some _ => true

/-- `validateDishReqBodyMiddleware`. -/
def validateDishReqBody (method : Method) (body : Payload) : MwResult :=
  if method = .put ∧ keysOf body = [] then .stop 200
  else if method = .post ∧ findMissing body dishAllowedProps ≠ [] then .stop 400
  else if findForbidden body dishForbiddenProps ≠ [] then .stop 422
  else if findUnrecognized body dishAllowedProps dishForbiddenProps ≠ [] then .stop 400
  else if nameViolation body then .stop 400
  else if descriptionViolation body then .stop 400
  else if priceViolation body then .stop 400
  else .next

/-- `dishes.findIndex((dish) => dish.id === dishId)` (string comparison). -/
def findDishIndex (dishes : List Dish) (dishId : String) : Option ℕ :=
  dishes.findIdx? (fun dish => dish.id == dishId)

/-- `validateIdInReqBodyMiddleware`: `restaurantId` must be present, a
number, a positive integer, and refer to a stored restaurant.  Returns
`some status` when the middleware responds, `none` when it calls `next()`. -/
def validateIdInReqBody (body : Payload) (db : DB) : Option ℕ :=
  match jsGet body "restaurantId" with
  | none => some 400
  | some (.num q) =>
    if q.den ≠ 1 ∨ q < 1 then some 400
    else if (findRestaurant db q.num.toNat).isNone then some 404
    else none
  | some _ => some 400

def orderAllowedProps : List String := ["restaurantId", "orderItems"]
def orderForbiddenProps : List String := ["id"]
def orderItemAllowedProps : List String := ["dishId", "amount"]

/-- The fields of an `obj` value, as a payload (JSON object values are
always defined). -/
def objPayload (fields : List (String × JsVal)) : Payload :=
  fields.map (fun kv => (kv.1, some kv.2))

/-- Per-element validation in `validateOrderReqBodyMiddleware`'s loop.
`typeof null` and `typeof` of an array are both `"object"`, so a `null`
element passes the typeof guard and then throws on property access inside
`findMissing` (caught as 500), while an array element reports its
`dishId`/`amount` as missing (400). -/
def checkOrderItem (item : JsVal) : Option ℕ :=
  match item with
  | .str _ | .num _ | .boolean _ => some 400
  | .null => some 500
  | .arr _ => some 400
  | .obj fields =>
    if findMissing (objPayload fields) orderItemAllowedProps ≠ [] then some 400
    else if findUnrecognized (objPayload fields) orderItemAllowedProps [] ≠ [] then some 400
    else
      match jsGet (objPayload fields) "dishId" with
      | some (.num d) =>
        if d.den ≠ 1 ∨ d < 1 then some 400
        else
          match jsGet (objPayload fields) "amount" with
          | some (.num a) => if a.den ≠ 1 ∨ a < 1 then some 400 else none
          | _ => some 400
      | _ => some 400

/-- First failure across the order items, in order. -/
def checkOrderItems : List JsVal → Option ℕ
  | [] => none
  | item :: rest =>
    match checkOrderItem item with
    | some s => some s
    | none => checkOrderItems rest

/-- `validateOrderReqBodyMiddleware`: missing (400), forbidden (422),
unrecognized (400), then `orderItems` must be a non-empty array whose
elements all pass `checkOrderItem`. -/
def validateOrderReqBody (body : Payload) : MwResult :=
  if findMissing body orderAllowedProps ≠ [] then .stop 400
  else if findForbidden body orderForbiddenProps ≠ [] then .stop 422
  else if findUnrecognized body orderAllowedProps orderForbiddenProps ≠ [] then .stop 400
  else
    match jsGet body "orderItems" with
    | some (.arr l) =>
      if l.isEmpty then .stop 400
      else
        match checkOrderItems l with
        | some s => .stop s
        | none => .next
    | _ => .stop 400

/-! ### Route handlers (restaurants, ratings, orders controllers)

Each pipeline returns the HTTP status and the resulting store.  Read-only
routes and store failures of plain `SELECT`s are orthogonal to the claims;
the failure oracle is threaded only through the multi-statement
transactions, whose `catch` issues `ROLLBACK` and reports 500. -/

/-- Extract a string value, with a fallback used only on ill-typed input
(unreachable behind the validators). -/
def strOf (v : Option JsVal) (dflt : String) : String :=
  match v with
  | some (.str s) => s
  | _ => dflt

/-- POST /ratings (`ratingsController`): after `validateIdInReqBodyMiddleware`,
the handler itself checks only that `rating` is present and a number in
[0, 5]; it then runs `BEGIN; INSERT; UPDATE averageRating; COMMIT` and rolls
back to the original store on any statement failure.  No missing /
forbidden / unrecognized property classification is performed for this
route. -/
def ratingsPostHandler (body : Payload) (ok : ℕ → Bool) (db : DB) : ℕ × DB :=
  match validateIdInReqBody body db with
  | some s => (s, db)
  | none =>
    let rid := match jsGet body "restaurantId" with | some (.num q) => q.num.toNat | _ => 0
    match jsGet body "rating" with
    | none => (400, db)
    | some (.num v) =>
      if v < 0 ∨ 5 < v then (400, db)
      else
        match runStmts [insertRatingStmt rid v, updateAverageRatingStmt rid, fun d => d] ok 0 db with
        | some db2 => (200, db2)
        | none => (500, db)
    | some _ => (400, db)

/-- DELETE /restaurants/:id: `BEGIN; DELETE ratings; DELETE orders;
DELETE restaurant; COMMIT`, rolled back as a unit on any failure. -/
def deleteRestaurantPipeline (idStr : String) (ok : ℕ → Bool) (db : DB) : ℕ × DB :=
  match validateIdParam idStr db with
  | .malformed => (400, db)
  | .notFound => (404, db)
  | .ok _ =>
    let rid := digitsVal idStr.data
    match runStmts [deleteRatingsStmt rid, deleteOrdersStmt rid, deleteRestaurantStmt rid,
        fun d => d] ok 0 db with
    | some db2 => (204, db2)
    | none => (500, db)

/-- The id a new restaurant row receives from the SERIAL column (one more
than the largest existing id; exact serial bookkeeping is irrelevant to the
claims). -/
def nextSerialId (db : DB) : ℕ :=
  db.restaurants.foldl (fun a r => max a r.id) 0 + 1

/-- POST /restaurants: `INSERT INTO restaurants (name, "isKosher", cuisines)`;
`averageRating` starts NULL, `dishes` defaults to `[]`, `nextDishId` to 1. -/
def postRestaurantPipeline (body : Payload) (db : DB) : ℕ × DB :=
  match validateRestaurantReqBody .post body with
  | .stop s => (s, db)
  | .next =>
    (201, { db with restaurants := db.restaurants ++
      [{ id := nextSerialId db
         name := strOf (jsGet body "name") ""
         isKosher := match jsGet body "isKosher" with | some (.boolean b) => b | _ => false
         cuisines := match jsGet body "cuisines" with
           | some (.arr l) => l.map (fun c => match c with | .str s => s | _ => "")
           | _ => []
         averageRating := none
         dishes := []
         nextDishId := 1 }] })

/-- The dynamic `UPDATE restaurants SET ...` of PUT /restaurants/:id: the
columns updated are the allowed properties present as keys of the body, in
the declared order (behind the validator every present value is well
typed; an ill-typed value keeps the old one here, an unreachable case). -/
def applyRestaurantUpdate (db : DB) (rid : ℕ) (body : Payload) : DB :=
  { db with
    restaurants := db.restaurants.map (fun r =>
      if r.id == rid then
        { r with
          name := if (keysOf body).contains "name" then strOf (jsGet body "name") r.name else r.name
          isKosher := if (keysOf body).contains "isKosher" then
              (match jsGet body "isKosher" with | some (.boolean b) => b | _ => r.isKosher)
            else r.isKosher
          cuisines := if (keysOf body).contains "cuisines" then
              (match jsGet body "cuisines" with
               | some (.arr l) => l.map (fun c => match c with | .str s => s | _ => "")
               | _ => r.cuisines)
            else r.cuisines }
      else r) }

/-- PUT /restaurants/:id: id middleware, body middleware, then the handler,
which returns 200 without touching the store when no allowed property has a
defined value, and otherwise issues the composed partial update. -/
def putRestaurantPipeline (idStr : String) (body : Payload) (db : DB) : ℕ × DB :=
  match validateIdParam idStr db with
  | .malformed => (400, db)
  | .notFound => (404, db)
  | .ok _ =>
    match validateRestaurantReqBody .put body with
    | .stop s => (s, db)
    | .next =>
      if restaurantAllowedProps.all (fun p => (jsGet body p).isNone) then (200, db)
      else (200, applyRestaurantUpdate db (digitsVal idStr.data) body)

/-- `UPDATE restaurants SET dishes = $1 WHERE id = $2`. -/
def setDishesStmt (rid : ℕ) (newDishes : List Dish) (db : DB) : DB :=
  { db with
    restaurants := db.restaurants.map (fun r =>
      if r.id == rid then { r with dishes := newDishes } else r) }

/-- `UPDATE restaurants SET dishes = $1, "nextDishId" = $2 WHERE id = $3`. -/
def setDishesAndCounterStmt (rid : ℕ) (newDishes : List Dish) (n : ℕ) (db : DB) : DB :=
  { db with
    restaurants := db.restaurants.map (fun r =>
      if r.id == rid then { r with dishes := newDishes, nextDishId := n } else r) }

/-- The dish built by POST /restaurants/:id/dishes: its id is
`nextDishId.toString()` and its price is `roundToDp(price, 2)`. -/
def mkNewDish (nextId : ℕ) (body : Payload) : Dish :=
  { id := Nat.repr nextId
    name := strOf (jsGet body "name") ""
    description := strOf (jsGet body "description") ""
    price := match jsGet body "price" with | some (.num q) => roundToDp q 2 | _ => 0 }

/-- POST /restaurants/:id/dishes: append the new dish and advance the
counter by one, in a single UPDATE. -/
def postDishPipeline (idStr : String) (body : Payload) (db : DB) : ℕ × DB :=
  match validateIdParam idStr db with
  | .malformed => (400, db)
  | .notFound => (404, db)
  | .ok r =>
    match validateDishReqBody .post body with
    | .stop s => (s, db)
    | .next =>
      (201, setDishesAndCounterStmt (digitsVal idStr.data)
        (r.dishes ++ [mkNewDish r.nextDishId body]) (r.nextDishId + 1) db)

/-- The merged dish of PUT /restaurants/:id/dishes/:dishId:
`{ ...dishToUpdate, ...updatedDishProperties }` where the updated
properties are the allowed ones present as keys of the body (well typed
behind the validator; an ill-typed value keeps the old one here, an
unreachable case). -/
def applyDishUpdate (d : Dish) (body : Payload) : Dish :=
  { id := d.id
    name := if (keysOf body).contains "name" then strOf (jsGet body "name") d.name else d.name
    description := if (keysOf body).contains "description" then
        strOf (jsGet body "description") d.description
      else d.description
    price := if (keysOf body).contains "price" then
        (match jsGet body "price" with | some (.num q) => q | _ => d.price)
      else d.price }

/-- `updatedDishes.splice(dishIndex, 1, updatedDish)` applied to a copy:
replace the element at the found index by the merged dish. -/
def updateDishList (dishes : List Dish) (i : ℕ) (body : Payload) : List Dish :=
  match dishes.get? i with
  | none => dishes
  | some d => dishes.set i (applyDishUpdate d body)

/-- PUT /restaurants/:id/dishes/:dishId: id middleware, dish body
middleware, dish-id middleware (syntactic check, then index lookup in the
restaurant's dish list), then the handler with its no-op short-circuit. -/
def putDishPipeline (idStr : String) (dishId : String) (body : Payload) (db : DB) : ℕ × DB :=
  match validateIdParam idStr db with
  | .malformed => (400, db)
  | .notFound => (404, db)
  | .ok r =>
    match validateDishReqBody .put body with
    | .stop s => (s, db)
    | .next =>
      if dishId = "0" ∨ hasNonDigit dishId then (400, db)
      else
        match findDishIndex r.dishes dishId with
        | none => (404, db)
        | some i =>
          if dishAllowedProps.all (fun p => (jsGet body p).isNone) then (200, db)
          else (200, setDishesStmt (digitsVal idStr.data) (updateDishList r.dishes i body) db)

/-- DELETE /restaurants/:id/dishes/:dishId: `splice(dishIndex, 1)` removes
the dish; `nextDishId` is not written. -/
def deleteDishPipeline (idStr : String) (dishId : String) (db : DB) : ℕ × DB :=
  match validateIdParam idStr db with
  | .malformed => (400, db)
  | .notFound => (404, db)
  | .ok r =>
    if dishId = "0" ∨ hasNonDigit dishId then (400, db)
    else
      match findDishIndex r.dishes dishId with
      | none => (404, db)
      | some i => (204, setDishesStmt (digitsVal idStr.data) (r.dishes.eraseIdx i) db)

/-- A validated order item, destructured into its typed form. -/
def toOrderItem (v : JsVal) : OrderItem :=
  match v with
  | .obj fields =>
    { dishId := match jsGet (objPayload fields) "dishId" with | some (.num d) => d | _ => 0
      amount := match jsGet (objPayload fields) "amount" with | some (.num a) => a | _ => 0 }
  | _ => ⟨0, 0⟩

/-- `validateOrderDishesExistenceMiddleware`: every ordered dish id must be
in the set of the restaurant's dish ids parsed with `Number.parseInt`. -/
def orderDishesExist (r : Restaurant) (items : List OrderItem) : Bool :=
  items.all (fun it =>
    (r.dishes.map (fun d => ((digitsVal d.id.data : ℕ) : ℚ))).contains it.dishId)

/-- POST /order: body-id middleware, order body middleware, dish existence
middleware, then the handler, which normalizes the items with
`combinedOrderItems` and inserts one order row. -/
def postOrderPipeline (body : Payload) (db : DB) : ℕ × DB :=
  match validateIdInReqBody body db with
  | some s => (s, db)
  | none =>
    match validateOrderReqBody body with
    | .stop s => (s, db)
    | .next =>
      let rid := match jsGet body "restaurantId" with | some (.num q) => q.num.toNat | _ => 0
      match findRestaurant db rid with
      | none => (500, db)
      | some r =>
        let items := match jsGet body "orderItems" with | some (.arr l) => l.map toOrderItem | _ => []
        if orderDishesExist r items then
          (200, { db with orders := db.orders ++ [⟨rid, combinedOrderItems items⟩] })
        else (404, db)

/-! ### Concrete sample data for witnesses and counterexamples -/

/-- A stored restaurant with no ratings and no dishes. -/
def sampleRestaurant : Restaurant :=
  { id := 1, name := "Taizu", isKosher := false, cuisines := ["Asian"],
    averageRating := none, dishes := [], nextDishId := 1 }

def sampleDB : DB := { restaurants := [sampleRestaurant], ratings := [], orders := [] }

/-- A stored restaurant whose dish counter is 3, with one dish of id "1". -/
def sampleRestaurant3 : Restaurant :=
  { id := 1, name := "Taizu", isKosher := false, cuisines := ["Asian"],
    averageRating := none,
    dishes := [{ id := "1", name := "Noodles", description := "Amazing", price := 59 }],
    nextDishId := 3 }

def sampleDB3 : DB := { restaurants := [sampleRestaurant3], ratings := [], orders := [] }

/-- The failure oracle under which every transaction statement succeeds. -/
def allOk : ℕ → Bool := fun _ => true

/-- The failure oracle under which exactly the statement at index `k`
raises. -/
def failAt (k : ℕ) : ℕ → Bool := fun i => i != k

/-- A stored restaurant with two ratings and one order attached
(`sampleDBFull`), mirroring the deletion scenario of the spec. -/
def sampleRestaurantFull : Restaurant :=
  { id := 1, name := "Taizu", isKosher := false, cuisines := ["Asian"],
    averageRating := some 4, dishes := [], nextDishId := 1 }

def sampleDBFull : DB :=
  { restaurants := [sampleRestaurantFull],
    ratings := [⟨1, 4⟩, ⟨1, 5⟩],
    orders := [⟨1, [⟨1, 2⟩]⟩] }

/-- A rating payload carrying a key that is neither allowed nor forbidden. -/
def extraFieldRatingBody : Payload :=
  [("restaurantId", some (.num 1)), ("rating", some (.num 3)),
   ("someExtraField", some (.str "x"))]

/-- A payload deliverable as a JSON request body: no key carries the value
`undefined` (JSON cannot express it). -/
def definedPayload (body : Payload) : Prop := ∀ kv ∈ body, kv.2 ≠ (none : Option JsVal)

/-- Well-formedness of a restaurant's dish list: the dish ids are the
decimal representations of distinct naturals, all below the counter. -/
def wfDishes (r : Restaurant) : Prop :=
  ∃ ns : List ℕ, r.dishes.map Dish.id = ns.map Nat.repr ∧ ns.Nodup ∧ ∀ k ∈ ns, k < r.nextDishId

/-! ## Theorems -/

/-- `jsGet` is `undefined` exactly when the key is absent or carries an
absent value. -/
theorem jsGet_isNone_eq (P : Payload) (a : String) :
    (jsGet P a).isNone = isAbsent (lookupKey P a) := by
  unfold jsGet
  cases h : lookupKey P a with
  | none => rfl
  | some v => cases v <;> rfl

/-- A key has no entry in the association list iff it is not among the keys. -/
theorem lookupKey_eq_none_iff (P : Payload) (a : String) :
    lookupKey P a = none ↔ a ∉ keysOf P := by
  induction P with
  | nil => simp [lookupKey, keysOf]
  | cons kv rest ih =>
    obtain ⟨k, v⟩ := kv
    by_cases h : k = a
    · subst h
      simp [lookupKey, keysOf]
    · rw [lookupKey, if_neg h, ih]
      show _ ↔ a ∉ k :: keysOf rest
      simp only [List.mem_cons, not_or]
      exact ⟨fun hna => ⟨fun hak => h hak.symm, hna⟩, fun hp => hp.2⟩

/-- C4: for every payload `P` and allow-list `A`, `findMissing P A` returns
exactly those elements of `A` that either are not keys of `P` or are keys
whose associated value is absent, in the order they appear in `A`. -/
theorem c4_find_missing :
    (∀ (P : Payload) (A : List String),
        findMissing P A = A.filter (fun a => isAbsent (lookupKey P a))) ∧
    (∀ (P : Payload) (a : String),
        isAbsent (lookupKey P a) = true ↔ (a ∉ keysOf P ∨ lookupKey P a = some none)) := by
  constructor
  · intro P A
    unfold findMissing
    exact List.filter_congr (fun a _ => jsGet_isNone_eq P a)
  · intro P a
    rcases h : lookupKey P a with _ | v
    · simp only [isAbsent, true_iff]
      exact Or.inl ((lookupKey_eq_none_iff P a).mp h)
    · cases v with
      | none => simp [isAbsent]
      | some w =>
        simp only [isAbsent, Bool.false_eq_true, false_iff]
        push_neg
        constructor
        · by_contra hmem
          have h2 := (lookupKey_eq_none_iff P a).mpr hmem
          rw [h] at h2
          exact Option.noConfusion h2
        · simp

/-! ### The order normalizer (C3) -/

theorem totalAmount_nil (d : ℚ) : totalAmount [] d = 0 := rfl

theorem totalAmount_cons (x : OrderItem) (xs : List OrderItem) (d : ℚ) :
    totalAmount (x :: xs) d = (if x.dishId = d then x.amount else 0) + totalAmount xs d := by
  by_cases h : x.dishId = d <;> simp [totalAmount, List.filter_cons, h]

/-- `List.contains` on rationals is membership. -/
theorem qcontains_iff (l : List ℚ) (q : ℚ) : l.contains q = true ↔ q ∈ l := by
  simp [List.contains_iff_exists_mem_beq, beq_iff_eq]

/-- The `findIndex`-style `any` test detects membership of the dish id. -/
theorem any_dishId_iff (acc : List OrderItem) (d : ℚ) :
    (acc.any fun elem => elem.dishId == d) = true ↔ d ∈ acc.map OrderItem.dishId := by
  simp [List.any_eq_true, beq_iff_eq, List.mem_map]

/-- With distinct dish ids, mutating the first match is a pointwise map. -/
theorem addToFirstMatch_eq_map (acc : List OrderItem) (d a : ℚ)
    (h : (acc.map OrderItem.dishId).Nodup) :
    addToFirstMatch acc d a =
      acc.map (fun x => if x.dishId = d then ⟨x.dishId, x.amount + a⟩ else x) := by
  induction acc with
  | nil => rfl
  | cons x xs ih =>
    simp only [List.map_cons, List.nodup_cons] at h
    by_cases hx : x.dishId = d
    · rw [addToFirstMatch, if_pos hx]
      have heq : xs.map (fun y => if y.dishId = d then (⟨y.dishId, y.amount + a⟩ : OrderItem) else y)
          = xs.map (fun y => y) := by
        apply List.map_congr_left
        intro y hy
        have hne : y.dishId ≠ d := by
          intro hyd
          have hmem := List.mem_map_of_mem OrderItem.dishId hy
          rw [hyd, ← hx] at hmem
          exact h.1 hmem
        simp [hne]
      simp only [List.map_cons, if_pos hx, heq, List.map_id']
    · rw [addToFirstMatch, if_neg hx]
      simp only [List.map_cons, if_neg hx]
      rw [ih h.2]

/-- Every id produced by `firstOccurrences` is new relative to `seen`. -/
theorem firstOccurrences_not_mem (l : List OrderItem) :
    ∀ (seen : List ℚ) (d : ℚ), d ∈ firstOccurrences seen l → d ∉ seen := by
  induction l with
  | nil => intro seen d hd; cases hd
  | cons x xs ih =>
    intro seen d hd
    rw [firstOccurrences] at hd
    by_cases hc : seen.contains x.dishId
    · rw [if_pos hc] at hd
      exact ih seen d hd
    · rw [if_neg hc] at hd
      rcases List.mem_cons.mp hd with rfl | hd2
      · exact fun hmem => hc ((qcontains_iff seen _).mpr hmem)
      · intro hmem
        exact ih _ d hd2 (List.mem_cons_of_mem _ hmem)

/-- `firstOccurrences` depends on `seen` only through membership. -/
theorem firstOccurrences_congr (l : List OrderItem) :
    ∀ (seen seen' : List ℚ), (∀ x, x ∈ seen ↔ x ∈ seen') →
      firstOccurrences seen l = firstOccurrences seen' l := by
  induction l with
  | nil => intro _ _ _; rfl
  | cons x xs ih =>
    intro seen seen' hss
    rw [firstOccurrences, firstOccurrences]
    by_cases hc : seen.contains x.dishId
    · have hc' : seen'.contains x.dishId := by
        exact (qcontains_iff _ _).mpr ((hss _).mp ((qcontains_iff _ _).mp hc))
      rw [if_pos hc, if_pos hc']
      exact ih seen seen' hss
    · have hc' : ¬ seen'.contains x.dishId = true := by
        intro hmem
        exact hc ((qcontains_iff _ _).mpr ((hss _).mpr ((qcontains_iff _ _).mp hmem)))
      rw [if_neg hc, if_neg hc']
      have : ∀ y, y ∈ x.dishId :: seen ↔ y ∈ x.dishId :: seen' := by
        intro y
        simp [List.mem_cons, hss y]
      rw [ih _ _ this]

/-- The ids produced by `firstOccurrences` are distinct. -/
theorem firstOccurrences_nodup (l : List OrderItem) :
    ∀ seen : List ℚ, (firstOccurrences seen l).Nodup := by
  induction l with
  | nil => intro _; exact List.nodup_nil
  | cons x xs ih =>
    intro seen
    rw [firstOccurrences]
    by_cases hc : seen.contains x.dishId
    · rw [if_pos hc]; exact ih seen
    · rw [if_neg hc]
      refine List.nodup_cons.mpr ⟨?_, ih _⟩
      intro hmem
      exact firstOccurrences_not_mem xs _ _ hmem (List.mem_cons_self _ _)

/-- Folding `combineStep` over the remaining items, starting from an
accumulator with distinct dish ids: every accumulated item absorbs what the
rest contributes to its id, and the genuinely new ids are appended in
first-occurrence order with their totals. -/
theorem foldl_combineStep_eq (l : List OrderItem) :
    ∀ acc : List OrderItem, (acc.map OrderItem.dishId).Nodup →
      l.foldl combineStep acc =
        acc.map (fun x => ⟨x.dishId, x.amount + totalAmount l x.dishId⟩) ++
          (firstOccurrences (acc.map OrderItem.dishId) l).map (fun d => ⟨d, totalAmount l d⟩) := by
  induction l with
  | nil =>
    intro acc h
    have hfun : (fun x : OrderItem => (⟨x.dishId, x.amount + totalAmount [] x.dishId⟩ : OrderItem))
        = fun x => x := by
      funext x
      rw [totalAmount_nil, add_zero]
    rw [List.foldl_nil, firstOccurrences, List.map_nil, List.append_nil, hfun, List.map_id']
  | cons x xs ih =>
    intro acc h
    rw [List.foldl_cons]
    by_cases hmem : x.dishId ∈ acc.map OrderItem.dishId
    · have hstep : combineStep acc x = addToFirstMatch acc x.dishId x.amount := by
        rw [combineStep, if_pos ((any_dishId_iff acc x.dishId).mpr hmem)]
      rw [hstep, addToFirstMatch_eq_map acc _ _ h]
      have hkeys : (acc.map fun y : OrderItem =>
            if y.dishId = x.dishId then (⟨y.dishId, y.amount + x.amount⟩ : OrderItem) else y).map
            OrderItem.dishId = acc.map OrderItem.dishId := by
        rw [List.map_map]
        apply List.map_congr_left
        intro y _
        by_cases hyd : y.dishId = x.dishId <;> simp [Function.comp, hyd]
      rw [ih _ (by rw [hkeys]; exact h), hkeys]
      congr 1
      · rw [List.map_map]
        apply List.map_congr_left
        intro y _
        by_cases hyd : y.dishId = x.dishId
        · simp only [Function.comp_def, if_pos hyd, totalAmount_cons, if_pos hyd.symm]
          rw [OrderItem.mk.injEq]
          exact ⟨rfl, by ring⟩
        · have hyd2 : x.dishId ≠ y.dishId := fun hh => hyd hh.symm
          simp only [Function.comp_def, if_neg hyd, totalAmount_cons, if_neg hyd2, zero_add]
      · rw [firstOccurrences, if_pos ((qcontains_iff _ _).mpr hmem)]
        apply List.map_congr_left
        intro d hd
        have hdne : x.dishId ≠ d := by
          intro hh
          exact firstOccurrences_not_mem xs _ _ hd (hh ▸ hmem)
        rw [OrderItem.mk.injEq]
        exact ⟨rfl, by rw [totalAmount_cons, if_neg hdne, zero_add]⟩
    · have hstep : combineStep acc x = acc ++ [x] := by
        rw [combineStep, if_neg]
        intro hany
        exact hmem ((any_dishId_iff _ _).mp hany)
      rw [hstep]
      have hkeys : (acc ++ [x]).map OrderItem.dishId = acc.map OrderItem.dishId ++ [x.dishId] := by
        simp
      have h2 : ((acc ++ [x]).map OrderItem.dishId).Nodup := by
        rw [hkeys]
        simp [List.nodup_append, h, hmem]
      rw [ih _ h2, hkeys, List.map_append]
      rw [firstOccurrences, if_neg (fun hc => hmem ((qcontains_iff _ _).mp hc))]
      simp only [List.map_cons, List.map_nil, List.nil_append, List.append_assoc,
        List.cons_append]
      congr 1
      · apply List.map_congr_left
        intro y hy
        have hne : x.dishId ≠ y.dishId := by
          intro hh
          exact hmem (hh ▸ List.mem_map_of_mem OrderItem.dishId hy)
        rw [OrderItem.mk.injEq]
        exact ⟨rfl, by rw [totalAmount_cons, if_neg hne, zero_add]⟩
      · congr 1
        · rw [OrderItem.mk.injEq]
          refine ⟨rfl, ?_⟩
          rw [totalAmount_cons, if_pos rfl]
        · rw [firstOccurrences_congr xs (acc.map OrderItem.dishId ++ [x.dishId])
            (x.dishId :: acc.map OrderItem.dishId) (by intro y; simp [List.mem_append, or_comm])]
          apply List.map_congr_left
          intro d hd
          have hdne : x.dishId ≠ d := by
            intro hh
            exact firstOccurrences_not_mem xs _ _ hd (hh ▸ List.mem_cons_self _ _)
          rw [OrderItem.mk.injEq]
          exact ⟨rfl, by rw [totalAmount_cons, if_neg hdne, zero_add]⟩

/-- C3: the order normalizer merges items by dish id: each dish id appears
exactly once, positioned at its first occurrence, with the summed amount;
in particular `[{dishId:1,amount:2},{dishId:2,amount:1},{dishId:1,amount:3}]`
normalizes to `[{dishId:1,amount:5},{dishId:2,amount:1}]`. -/
theorem c3_order_normalizer :
    (∀ l : List OrderItem, combinedOrderItems l = normalizeSpec l) ∧
    (∀ l : List OrderItem, ((combinedOrderItems l).map OrderItem.dishId).Nodup) ∧
    combinedOrderItems [⟨1, 2⟩, ⟨2, 1⟩, ⟨1, 3⟩] = [⟨1, 5⟩, ⟨2, 1⟩] := by
  have hmain : ∀ l : List OrderItem, combinedOrderItems l = normalizeSpec l := by
    intro l
    rw [combinedOrderItems, normalizeSpec, foldl_combineStep_eq l [] (by simp)]
    rfl
  refine ⟨hmain, fun l => ?_, ?_⟩
  · rw [hmain, normalizeSpec, List.map_map]
    have : (OrderItem.dishId ∘ fun d => (⟨d, totalAmount l d⟩ : OrderItem)) = fun d => d := rfl
    rw [this, List.map_id']
    exact firstOccurrences_nodup l []
  · rw [hmain]
    show normalizeSpec [⟨1, 2⟩, ⟨2, 1⟩, ⟨1, 3⟩] = [⟨1, 5⟩, ⟨2, 1⟩]
    have e11 : ((1 : ℚ) == 1) = true := by simp
    have e22 : ((2 : ℚ) == 2) = true := by simp
    have e21 : ((2 : ℚ) == 1) = false := by
      simp only [beq_eq_false_iff_ne, ne_eq]
      norm_num
    have e12 : ((1 : ℚ) == 2) = false := by
      simp only [beq_eq_false_iff_ne, ne_eq]
      norm_num
    norm_num [normalizeSpec, firstOccurrences, totalAmount, List.filter, List.contains,
      List.elem, e11, e22, e21, e12]

/-! ### Decimal representations: `Nat.repr` round trip -/

theorem toDigitsCore_append (fuel : ℕ) : ∀ (n : ℕ) (ds : List Char),
    Nat.toDigitsCore 10 fuel n ds = Nat.toDigitsCore 10 fuel n [] ++ ds := by
  induction fuel with
  | zero => intro n ds; simp [Nat.toDigitsCore]
  | succ fuel ih =>
    intro n ds
    simp only [Nat.toDigitsCore]
    by_cases h : n / 10 = 0
    · simp [h]
    · simp only [h, if_false]
      rw [ih (n / 10) (Nat.digitChar (n % 10) :: ds), ih (n / 10) [Nat.digitChar (n % 10)]]
      simp

theorem digitsVal_append_singleton (xs : List Char) (c : Char) :
    digitsVal (xs ++ [c]) = 10 * digitsVal xs + charToDigit c := by
  simp [digitsVal, List.foldl_append]

theorem charToDigit_digitChar : ∀ m : ℕ, m < 10 → charToDigit (Nat.digitChar m) = m := by
  decide

theorem digitsVal_toDigitsCore : ∀ (fuel n : ℕ), n ≤ fuel →
    digitsVal (Nat.toDigitsCore 10 fuel n []) = n := by
  intro fuel
  induction fuel with
  | zero =>
    intro n hn
    interval_cases n
    simp [Nat.toDigitsCore, digitsVal]
  | succ fuel ih =>
    intro n hn
    simp only [Nat.toDigitsCore]
    by_cases h : n / 10 = 0
    · have hlt : n < 10 := by
        by_contra hge
        push_neg at hge
        have : 0 < n / 10 := Nat.div_pos hge (by norm_num)
        omega
      simp only [h, if_true]
      show digitsVal [Nat.digitChar (n % 10)] = n
      have : digitsVal [Nat.digitChar (n % 10)] = charToDigit (Nat.digitChar (n % 10)) := by
        simp [digitsVal]
      rw [this, Nat.mod_eq_of_lt hlt, charToDigit_digitChar n hlt]
    · simp only [h, if_false]
      rw [toDigitsCore_append fuel (n / 10) [Nat.digitChar (n % 10)]]
      rw [digitsVal_append_singleton, charToDigit_digitChar _ (Nat.mod_lt n (by norm_num))]
      · have hdiv : n / 10 ≤ fuel := by
          have h1 : 0 < n := by
            by_contra h0
            push_neg at h0
            interval_cases n
            exact h rfl
          have h2 : n / 10 < n := Nat.div_lt_self h1 (by norm_num)
          omega
        rw [ih (n / 10) hdiv]
        exact Nat.div_add_mod n 10

/-- The decimal digits of `n` evaluate back to `n`. -/
theorem digitsVal_repr (n : ℕ) : digitsVal (Nat.repr n).data = n := by
  have h : (Nat.repr n).data = Nat.toDigitsCore 10 (n + 1) n [] := rfl
  rw [h]
  exact digitsVal_toDigitsCore (n + 1) n (Nat.le_succ n)

/-- Distinct naturals have distinct decimal representations. -/
theorem repr_injective : Function.Injective Nat.repr := by
  intro a b h
  calc a = digitsVal (Nat.repr a).data := (digitsVal_repr a).symm
    _ = digitsVal (Nat.repr b).data := by rw [h]
    _ = b := digitsVal_repr b

theorem digitChar_isDigit : ∀ m : ℕ, m < 10 → (Nat.digitChar m).isDigit = true := by
  decide

theorem toDigitsCore_all_digits : ∀ (fuel n : ℕ) (ds : List Char),
    (∀ c ∈ ds, c.isDigit = true) → ∀ c ∈ Nat.toDigitsCore 10 fuel n ds, c.isDigit = true := by
  intro fuel
  induction fuel with
  | zero => intro n ds hds; simpa [Nat.toDigitsCore] using hds
  | succ fuel ih =>
    intro n ds hds
    simp only [Nat.toDigitsCore]
    by_cases h : n / 10 = 0
    · simp only [h, if_true]
      intro c hc
      rcases List.mem_cons.mp hc with rfl | hc2
      · exact digitChar_isDigit _ (Nat.mod_lt n (by norm_num))
      · exact hds c hc2
    · simp only [h, if_false]
      apply ih
      intro c hc
      rcases List.mem_cons.mp hc with rfl | hc2
      · exact digitChar_isDigit _ (Nat.mod_lt n (by norm_num))
      · exact hds c hc2

/-- A decimal representation never contains a non-digit character. -/
theorem hasNonDigit_repr (n : ℕ) : hasNonDigit (Nat.repr n) = false := by
  rw [hasNonDigit]
  rw [List.any_eq_false]
  intro c hc
  have h : (Nat.repr n).data = Nat.toDigitsCore 10 (n + 1) n [] := rfl
  rw [h] at hc
  have := toDigitsCore_all_digits (n + 1) n [] (by intro c hc; cases hc) c hc
  simp [this]

/-- The decimal representation of a positive natural is not the string "0". -/
theorem repr_pos_ne_zero_str (n : ℕ) (hn : 0 < n) : Nat.repr n ≠ "0" := by
  intro h
  have := digitsVal_repr n
  rw [h] at this
  have h0 : digitsVal ("0" : String).data = 0 := by decide
  omega

/-! ### C7: route-id validation -/

/-- C7 counterexample: the string "00" is not the decimal representation of
any positive integer, yet `validateIdParamMiddleware` does not reject it as
malformed: it passes the syntactic test (all digits, not the literal "0"),
the store is consulted, and the outcome is the 404 not-found one. -/
theorem c7_counterexample :
    (¬ ∃ n : ℕ, 0 < n ∧ Nat.repr n = "00") ∧
    validateIdParam "00" sampleDB = .notFound := by
  constructor
  · rintro ⟨n, hn, hr⟩
    have := digitsVal_repr n
    rw [hr] at this
    have h0 : digitsVal ("00" : String).data = 0 := by decide
    omega
  · decide

/-- C7 amended: the middleware rejects an id as malformed (400, without
consulting the store) exactly when it is the literal "0" or contains a
non-digit character; any other digit string — including non-canonical ones
such as "00" or "007" — is parsed numerically and looked up, yielding the
not-found outcome precisely when no stored restaurant has that numeric id.
Every canonical decimal representation of a positive integer passes the
syntactic test. -/
theorem c7_amended_id_check (idStr : String) (db : DB) :
    ((idStr = "0" ∨ hasNonDigit idStr = true) → validateIdParam idStr db = .malformed) ∧
    (idStr ≠ "0" → hasNonDigit idStr = false →
      validateIdParam idStr db =
        (match findRestaurant db (digitsVal idStr.data) with
         | none => .notFound
         | some r => .ok r)) ∧
    ((∃ n : ℕ, 0 < n ∧ Nat.repr n = idStr) → validateIdParam idStr db ≠ .malformed) := by
  refine ⟨?_, ?_, ?_⟩
  · intro h
    rw [validateIdParam, if_pos h]
  · intro h1 h2
    rw [validateIdParam, if_neg]
    rintro (h | h)
    · exact h1 h
    · rw [h2] at h
      cases h
  · rintro ⟨n, hn, rfl⟩
    rw [validateIdParam, if_neg]
    · cases h : findRestaurant db (digitsVal (Nat.repr n).data) <;> simp
    · rintro (h | h)
      · exact repr_pos_ne_zero_str n hn h
      · rw [hasNonDigit_repr] at h
        cases h

/-- Witness for C7 at concrete inputs: "0" is malformed; "00" is looked up
in the store of `sampleDB` and yields not-found; the canonical id "1" is
never malformed. -/
theorem c7_witness :
    validateIdParam "0" sampleDB = .malformed ∧
    validateIdParam "00" sampleDB = .notFound ∧
    validateIdParam "1" sampleDB ≠ .malformed := by
  refine ⟨(c7_amended_id_check "0" sampleDB).1 (Or.inl rfl), ?_, ?_⟩
  · have h := (c7_amended_id_check "00" sampleDB).2.1 (by decide) (by decide)
    rw [h]
    decide
  · exact (c7_amended_id_check "1" sampleDB).2.2 ⟨1, Nat.one_pos, rfl⟩

/-! ### C2: cascading restaurant deletion is atomic -/

/-- C2: for a stored restaurant, DELETE /restaurants/:id removes its
ratings, orders and row as one unit: if all four transaction statements
(three deletes and the commit) succeed the result is 204 with all three
deletions visible; if any of them fails the handler rolls back, reports
500, and the store is exactly the original one. -/
theorem c2_delete_restaurant_atomic (idStr : String) (db : DB) (r : Restaurant) (ok : ℕ → Bool)
    (hok : validateIdParam idStr db = .ok r) :
    (ok 0 = true ∧ ok 1 = true ∧ ok 2 = true ∧ ok 3 = true →
      deleteRestaurantPipeline idStr ok db =
        (204,
          { restaurants := db.restaurants.filter (fun x => x.id != digitsVal idStr.data)
            ratings := db.ratings.filter (fun x => x.restaurantId != digitsVal idStr.data)
            orders := db.orders.filter (fun x => x.restaurantId != digitsVal idStr.data) })) ∧
    (¬(ok 0 = true ∧ ok 1 = true ∧ ok 2 = true ∧ ok 3 = true) →
      deleteRestaurantPipeline idStr ok db = (500, db)) := by
  constructor
  · rintro ⟨h0, h1, h2, h3⟩
    simp [deleteRestaurantPipeline, hok, runStmts, h0, h1, h2, h3,
      deleteRatingsStmt, deleteOrdersStmt, deleteRestaurantStmt]
  · intro hfail
    by_cases h0 : ok 0 = true
    · by_cases h1 : ok 1 = true
      · by_cases h2 : ok 2 = true
        · by_cases h3 : ok 3 = true
          · exact absurd ⟨h0, h1, h2, h3⟩ hfail
          · simp [deleteRestaurantPipeline, hok, runStmts, h0, h1, h2, h3]
        · simp [deleteRestaurantPipeline, hok, runStmts, h0, h1, h2]
      · simp [deleteRestaurantPipeline, hok, runStmts, h0, h1]
    · simp [deleteRestaurantPipeline, hok, runStmts, h0]

/-- Witness for C2: deleting restaurant 1 of `sampleDBFull` (two ratings,
one order) with all statements succeeding empties all three tables; with
the orders-delete statement failing (after the ratings delete, before the
restaurant delete) the whole store — including the already-deleted
ratings — is rolled back. -/
theorem c2_witness :
    deleteRestaurantPipeline "1" allOk sampleDBFull = (204, ⟨[], [], []⟩) ∧
    deleteRestaurantPipeline "1" (failAt 1) sampleDBFull = (500, sampleDBFull) := by
  have hok : validateIdParam "1" sampleDBFull = .ok sampleRestaurantFull := by decide
  constructor
  · rw [(c2_delete_restaurant_atomic "1" sampleDBFull sampleRestaurantFull allOk hok).1
      (by decide)]
    decide
  · exact (c2_delete_restaurant_atomic "1" sampleDBFull sampleRestaurantFull (failAt 1) hok).2
      (by decide)

/-! ### C1: rating creation inserts one row and recomputes the mean, atomically -/

/-- Looking up by id after an id-preserving pointwise update finds the
updated first match. -/
theorem find_map_update (l : List Restaurant) (rid : ℕ) (r : Restaurant)
    (g : Restaurant → Restaurant) (hg : ∀ x, (g x).id = x.id)
    (h : l.find? (fun x => x.id == rid) = some r) :
    (l.map (fun x => if x.id == rid then g x else x)).find? (fun x => x.id == rid)
      = some (g r) := by
  induction l with
  | nil => cases h
  | cons x xs ih =>
    by_cases hx : (x.id == rid) = true
    · simp only [List.find?, hx] at h
      injection h with h
      subst h
      have hgx : ((g x).id == rid) = true := by
        rw [hg x]
        exact hx
      simp only [List.map_cons, if_pos hx, List.find?, hgx]
    · have hxf : (x.id == rid) = false := by
        cases hb : (x.id == rid)
        · rfl
        · exact absurd hb hx
      simp only [List.find?, hxf] at h
      rw [List.map_cons, if_neg hx]
      simp only [List.find?, hxf]
      exact ih h

/-- Inserting the new rating row extends the restaurant's rating list by
exactly that rating. -/
theorem ratingsOf_insert (db : DB) (rid : ℕ) (v : ℚ) :
    ratingsOf (insertRatingStmt rid v db) rid = ratingsOf db rid ++ [v] := by
  simp [ratingsOf, insertRatingStmt, List.filter_append]

/-- C1: for a stored restaurant `r` (with its positive serial id) and any
rating `0 ≤ v ≤ 5`, a rating creation whose transaction statements all
succeed returns 200 and a store in which exactly one rating row for `r`
was appended and `r`'s `averageRating` is the arithmetic mean of all of
`r`'s ratings including the new one; if any statement fails, the handler
rolls back, reports 500, and the store is unchanged. -/
theorem c1_rating_insert_avg_atomic (db : DB) (r : Restaurant) (v : ℚ) (ok : ℕ → Bool)
    (hr : findRestaurant db r.id = some r) (hid : 1 ≤ r.id) (h0 : 0 ≤ v) (h5 : v ≤ 5) :
    (ok 0 = true ∧ ok 1 = true ∧ ok 2 = true →
      ∃ db2,
        ratingsPostHandler [("restaurantId", some (.num (r.id : ℚ))), ("rating", some (.num v))]
            ok db = (200, db2) ∧
        db2.ratings = db.ratings ++ [⟨r.id, v⟩] ∧
        db2.orders = db.orders ∧
        ratingsOf db2 r.id = ratingsOf db r.id ++ [v] ∧
        findRestaurant db2 r.id = some { r with averageRating := some ((ratingsOf db r.id ++ [v]).sum / ((ratingsOf db r.id ++ [v]).length : ℚ)) }) ∧
    (¬(ok 0 = true ∧ ok 1 = true ∧ ok 2 = true) →
      ratingsPostHandler [("restaurantId", some (.num (r.id : ℚ))), ("rating", some (.num v))]
          ok db = (500, db)) := by
  have hden : ((r.id : ℚ)).den = 1 := Rat.den_natCast r.id
  have hnum : ((r.id : ℚ)).num.toNat = r.id := by
    rw [Rat.num_natCast, Int.toNat_natCast]
  have hge : ¬((r.id : ℚ).den ≠ 1 ∨ (r.id : ℚ) < 1) := by
    push_neg
    exact ⟨hden, by exact_mod_cast hid⟩
  have hmw : validateIdInReqBody
      [("restaurantId", some (.num (r.id : ℚ))), ("rating", some (.num v))] db = none := by
    rw [validateIdInReqBody]
    show (if (r.id : ℚ).den ≠ 1 ∨ (r.id : ℚ) < 1 then some 400
      else if (findRestaurant db (r.id : ℚ).num.toNat).isNone then some 404 else none) = none
    rw [if_neg hge, hnum, hr]
    rfl
  have hrange : ¬(v < 0 ∨ 5 < v) := by
    push_neg
    exact ⟨h0, h5⟩
  have hstr : ("restaurantId" : String) ≠ "rating" := by decide
  constructor
  · rintro ⟨hk0, hk1, hk2⟩
    refine ⟨updateAverageRatingStmt r.id (insertRatingStmt r.id v db), ?_, ?_, ?_, ?_, ?_⟩
    · simp [ratingsPostHandler, hmw, jsGet, lookupKey, hstr, hrange, runStmts,
        hk0, hk1, hk2, hnum]
    · simp [updateAverageRatingStmt, insertRatingStmt]
    · simp [updateAverageRatingStmt, insertRatingStmt]
    · have h1 : (updateAverageRatingStmt r.id (insertRatingStmt r.id v db)).ratings
          = (insertRatingStmt r.id v db).ratings := by
        simp [updateAverageRatingStmt]
      show ratingsOf _ _ = _
      rw [ratingsOf, h1, ← ratingsOf, ratingsOf_insert]
    · rw [updateAverageRatingStmt]
      show (List.map _ (insertRatingStmt r.id v db).restaurants).find? _ = _
      have hfind : (insertRatingStmt r.id v db).restaurants.find? (fun x => x.id == r.id)
          = some r := by
        simpa [insertRatingStmt, findRestaurant] using hr
      have happ := find_map_update (insertRatingStmt r.id v db).restaurants r.id r
        (fun x => { x with averageRating := avgRating (insertRatingStmt r.id v db) r.id })
        (fun x => rfl) hfind
      rw [findRestaurant] at *
      rw [happ]
      have hlen : (ratingsOf (insertRatingStmt r.id v db) r.id).length ≠ 0 := by
        rw [ratingsOf_insert]
        simp
      rw [avgRating, if_neg hlen, ratingsOf_insert]
  · intro hfail
    by_cases hk0 : ok 0 = true
    · by_cases hk1 : ok 1 = true
      · by_cases hk2 : ok 2 = true
        · exact absurd ⟨hk0, hk1, hk2⟩ hfail
        · simp [ratingsPostHandler, hmw, jsGet, lookupKey, hstr, hrange, runStmts,
            hk0, hk1, hk2]
      · simp [ratingsPostHandler, hmw, jsGet, lookupKey, hstr, hrange, runStmts, hk0, hk1]
    · simp [ratingsPostHandler, hmw, jsGet, lookupKey, hstr, hrange, runStmts, hk0]

/-- Witness for C1: rating restaurant 1 of `sampleDB` with 3 succeeds with
200, appends the single row, and sets the average to 3; with the insert
statement failing, the handler reports 500 and the store is unchanged. -/
theorem c1_witness :
    (ratingsPostHandler [("restaurantId", some (.num (sampleRestaurant.id : ℚ))),
        ("rating", some (.num 3))] allOk sampleDB).1 = 200 ∧
    (ratingsPostHandler [("restaurantId", some (.num (sampleRestaurant.id : ℚ))),
        ("rating", some (.num 3))] allOk sampleDB).2.ratings = [⟨1, 3⟩] ∧
    findRestaurant (ratingsPostHandler [("restaurantId", some (.num (sampleRestaurant.id : ℚ))),
        ("rating", some (.num 3))] allOk sampleDB).2 1
      = some { sampleRestaurant with averageRating := some 3 } ∧
    ratingsPostHandler [("restaurantId", some (.num (sampleRestaurant.id : ℚ))),
        ("rating", some (.num 3))] (failAt 0) sampleDB = (500, sampleDB) := by
  have h := c1_rating_insert_avg_atomic sampleDB sampleRestaurant 3 allOk
    (by decide) (by decide) (by norm_num) (by norm_num)
  have h2 := c1_rating_insert_avg_atomic sampleDB sampleRestaurant 3 (failAt 0)
    (by decide) (by decide) (by norm_num) (by norm_num)
  obtain ⟨db2, heq, hrat, -, -, hfind⟩ := h.1 ⟨rfl, rfl, rfl⟩
  have hmean : ((ratingsOf sampleDB sampleRestaurant.id ++ [(3 : ℚ)]).sum /
      ((ratingsOf sampleDB sampleRestaurant.id ++ [(3 : ℚ)]).length : ℚ)) = 3 := by
    norm_num [ratingsOf, sampleDB]
  rw [hmean] at hfind
  refine ⟨by rw [heq], ?_, ?_, h2.2 (by decide)⟩
  · rw [heq]
    simpa using hrat
  · rw [heq]
    exact hfind

/-! ### C8: a PUT with no mutable field is a successful no-op -/

/-- `List.contains` on strings is membership. -/
theorem scontains_iff (l : List String) (s : String) : l.contains s = true ↔ s ∈ l := by
  simp [List.contains_iff_exists_mem_beq, beq_iff_eq]

/-- A JSON body with no forbidden key, no unrecognized key, and every
allowed property undefined is the empty object. -/
theorem body_empty_of_classified (body : Payload) (A F : List String)
    (hdef : definedPayload body)
    (hforb : findForbidden body F = [])
    (hunrec : findUnrecognized body A F = [])
    (hall : ∀ p ∈ A, jsGet body p = none) :
    body = [] := by
  cases hb : body with
  | nil => rfl
  | cons kv rest =>
    exfalso
    obtain ⟨k, v⟩ := kv
    subst hb
    have hk : k ∈ keysOf ((k, v) :: rest) := by simp [keysOf]
    have hunrec2 := (List.filter_eq_nil_iff.mp hunrec) k hk
    simp only [Bool.and_eq_true, Bool.not_eq_true', Bool.not_eq_false] at hunrec2
    have hkA : k ∈ A := by
      cases hca : A.contains k with
      | true => exact (scontains_iff A k).mp hca
      | false =>
        exfalso
        cases hcf : F.contains k with
        | false => exact hunrec2 ⟨hca, hcf⟩
        | true =>
          have hkF : k ∈ F := (scontains_iff F k).mp hcf
          have h3 := (List.filter_eq_nil_iff.mp hforb) k hkF
          exact h3 ((scontains_iff _ _).mpr hk)
    have hnone := hall k hkA
    have : jsGet ((k, v) :: rest) k = v := by
      simp [jsGet, lookupKey]
    rw [this] at hnone
    exact hdef (k, v) (List.mem_cons_self _ _) hnone

/-- C8: a PUT of a stored restaurant, or of a dish route of a stored
restaurant, whose JSON payload has no forbidden field, no unrecognized
field and none of the entity's mutable fields, responds 200 (empty body)
without writing to the store and without any error — for the dish route
even the dish id is never inspected, since the body middleware
short-circuits on the empty object. -/
theorem c8_noop_put :
    (∀ (idStr : String) (body : Payload) (db : DB) (r : Restaurant),
      validateIdParam idStr db = .ok r →
      definedPayload body →
      findForbidden body restaurantForbiddenProps = [] →
      findUnrecognized body restaurantAllowedProps restaurantForbiddenProps = [] →
      (∀ p ∈ restaurantAllowedProps, jsGet body p = none) →
      putRestaurantPipeline idStr body db = (200, db)) ∧
    (∀ (idStr dishId : String) (body : Payload) (db : DB) (r : Restaurant),
      validateIdParam idStr db = .ok r →
      definedPayload body →
      findForbidden body dishForbiddenProps = [] →
      findUnrecognized body dishAllowedProps dishForbiddenProps = [] →
      (∀ p ∈ dishAllowedProps, jsGet body p = none) →
      putDishPipeline idStr dishId body db = (200, db)) := by
  constructor
  · intro idStr body db r hok hdef hforb hunrec hall
    have hb : body = [] := body_empty_of_classified body _ _ hdef hforb hunrec hall
    subst hb
    simp [putRestaurantPipeline, hok, validateRestaurantReqBody, keysOf]
  · intro idStr dishId body db r hok hdef hforb hunrec hall
    have hb : body = [] := body_empty_of_classified body _ _ hdef hforb hunrec hall
    subst hb
    simp [putDishPipeline, hok, validateDishReqBody, keysOf]

/-- Witness for C8: an empty-body PUT on restaurant 1 of `sampleDB` — and
on a dish route with a dish id ("9") that does not even exist — returns
200 and leaves the store untouched. -/
theorem c8_witness :
    putRestaurantPipeline "1" [] sampleDB = (200, sampleDB) ∧
    putDishPipeline "1" "9" [] sampleDB = (200, sampleDB) := by
  constructor
  · exact c8_noop_put.1 "1" [] sampleDB sampleRestaurant (by decide)
      (by intro kv h; cases h) rfl rfl (by intro p _; rfl)
  · exact c8_noop_put.2 "1" "9" [] sampleDB sampleRestaurant (by decide)
      (by intro kv h; cases h) rfl rfl (by intro p _; rfl)

/-! ### C9: dish ids come from the monotonic counter and are never reused -/

theorem map_eraseIdx {α β : Type} (f : α → β) :
    ∀ (l : List α) (i : ℕ), (l.eraseIdx i).map f = (l.map f).eraseIdx i := by
  intro l
  induction l with
  | nil => intro i; cases i <;> rfl
  | cons x xs ih =>
    intro i
    cases i with
    | zero => rfl
    | succ j =>
      simp only [List.eraseIdx, List.map_cons]
      rw [ih j]

/-- C9: adding a dish assigns id `nextDishId.toString()` and advances the
counter by exactly one; deleting a dish rewrites only the dish list, not
the counter; under the well-formedness invariant (which both operations
preserve) dish ids are pairwise distinct and the id the counter would
assign next is fresh — so ids are never reused even after deletion; with
`nextDishId = 3` the new dish has id "3". -/
theorem c9_dish_id_monotonic :
    (∀ (idStr : String) (body : Payload) (db : DB) (r : Restaurant),
      validateIdParam idStr db = .ok r →
      validateDishReqBody .post body = .next →
      postDishPipeline idStr body db =
        (201, setDishesAndCounterStmt (digitsVal idStr.data)
          (r.dishes ++ [mkNewDish r.nextDishId body]) (r.nextDishId + 1) db) ∧
      (mkNewDish r.nextDishId body).id = Nat.repr r.nextDishId) ∧
    (∀ (idStr dishId : String) (db : DB) (r : Restaurant) (i : ℕ),
      validateIdParam idStr db = .ok r →
      ¬(dishId = "0" ∨ hasNonDigit dishId = true) →
      findDishIndex r.dishes dishId = some i →
      deleteDishPipeline idStr dishId db =
        (204, setDishesStmt (digitsVal idStr.data) (r.dishes.eraseIdx i) db)) ∧
    (∀ r : Restaurant, wfDishes r →
      (r.dishes.map Dish.id).Nodup ∧
      Nat.repr r.nextDishId ∉ r.dishes.map Dish.id ∧
      (∀ body, wfDishes { r with dishes := r.dishes ++ [mkNewDish r.nextDishId body], nextDishId := r.nextDishId + 1 }) ∧
      (∀ i, wfDishes { r with dishes := r.dishes.eraseIdx i })) ∧
    (∀ body, (mkNewDish 3 body).id = "3") := by
  refine ⟨?_, ?_, ?_, fun body => rfl⟩
  · intro idStr body db r hok hbody
    exact ⟨by simp [postDishPipeline, hok, hbody], rfl⟩
  · intro idStr dishId db r i hok hsyn hidx
    simp [deleteDishPipeline, hok, hsyn, hidx]
  · rintro r ⟨ns, hmap, hnodup, hbound⟩
    refine ⟨?_, ?_, ?_, ?_⟩
    · rw [hmap]
      exact hnodup.map repr_injective
    · rw [hmap]
      intro hmem
      obtain ⟨k, hk, hkeq⟩ := List.mem_map.mp hmem
      have hke : k = r.nextDishId := repr_injective hkeq
      exact absurd (hbound k hk) (by rw [hke]; exact lt_irrefl _)
    · intro body
      refine ⟨ns ++ [r.nextDishId], ?_, ?_, ?_⟩
      · show (r.dishes ++ [mkNewDish r.nextDishId body]).map Dish.id = _
        rw [List.map_append, hmap, List.map_append]
        rfl
      · rw [List.nodup_append]
        refine ⟨hnodup, List.nodup_singleton _, ?_⟩
        intro k hk hmem
        have : k = r.nextDishId := by simpa using hmem
        exact absurd (hbound k hk) (by rw [this]; exact lt_irrefl _)
      · intro k hk
        show k < r.nextDishId + 1
        rcases List.mem_append.mp hk with hk2 | hk2
        · exact Nat.lt_succ_of_lt (hbound k hk2)
        · have : k = r.nextDishId := by simpa using hk2
          rw [this]
          exact Nat.lt_succ_self _
    · intro i
      refine ⟨ns.eraseIdx i, ?_, ?_, ?_⟩
      · show (r.dishes.eraseIdx i).map Dish.id = _
        rw [map_eraseIdx, hmap, map_eraseIdx]
      · exact List.Nodup.sublist (List.eraseIdx_sublist ns i) hnodup
      · intro k hk
        show k < r.nextDishId
        exact hbound k ((List.eraseIdx_sublist ns i).subset hk)

/-- Witness for C9 at `sampleDB3` (one dish of id "1", counter 3): adding a
dish responds 201 and the new dish's id is "3"; deleting dish "1" responds
204 and rewrites only the dish list; the invariant facts hold concretely. -/
theorem c9_witness :
    (postDishPipeline "1" [("name", some (.str "Pad")), ("description", some (.str "d")),
        ("price", some (.num 7))] sampleDB3).1 = 201 ∧
    (mkNewDish sampleRestaurant3.nextDishId [("name", some (.str "Pad")),
        ("description", some (.str "d")), ("price", some (.num 7))]).id = "3" ∧
    deleteDishPipeline "1" "1" sampleDB3 =
      (204, setDishesStmt 1 (sampleRestaurant3.dishes.eraseIdx 0) sampleDB3) ∧
    (sampleRestaurant3.dishes.map Dish.id).Nodup ∧
    Nat.repr sampleRestaurant3.nextDishId ∉ sampleRestaurant3.dishes.map Dish.id := by
  have hwf : wfDishes sampleRestaurant3 := ⟨[1], by decide, by decide, by decide⟩
  have hadd := c9_dish_id_monotonic.1 "1"
    [("name", some (.str "Pad")), ("description", some (.str "d")), ("price", some (.num 7))]
    sampleDB3 sampleRestaurant3 (by decide) (by decide)
  have hdel := c9_dish_id_monotonic.2.1 "1" "1" sampleDB3 sampleRestaurant3 0
    (by decide) (by decide) (by decide)
  have hinv := c9_dish_id_monotonic.2.2.1 sampleRestaurant3 hwf
  refine ⟨by rw [hadd.1], ?_, hdel, hinv.1, hinv.2.1⟩
  rw [hadd.2]
  decide

/-! ### C10: a dish update is a frame-preserving point update -/

/-- A looked-up entry belongs to the association list. -/
theorem lookupKey_mem (body : Payload) (k : String) (v : Option JsVal) :
    lookupKey body k = some v → (k, v) ∈ body := by
  induction body with
  | nil => intro h; cases h
  | cons kv rest ih =>
    obtain ⟨k2, v2⟩ := kv
    intro h
    by_cases hk : k2 = k
    · subst hk
      rw [lookupKey, if_pos rfl] at h
      injection h with h
      subst h
      exact List.mem_cons_self _ _
    · rw [lookupKey, if_neg hk] at h
      exact List.mem_cons_of_mem _ (ih h)

/-- A defined `jsGet` value certifies the key is present. -/
theorem mem_keys_of_jsGet_some (body : Payload) (k : String) (w : JsVal) :
    jsGet body k = some w → k ∈ keysOf body := by
  intro h
  by_contra hk
  rw [jsGet, (lookupKey_eq_none_iff body k).mpr hk] at h
  cases h

/-- On a JSON body, an undefined `jsGet` certifies the key is absent. -/
theorem not_mem_keys_of_jsGet_none (body : Payload) (hdef : definedPayload body) (k : String) :
    jsGet body k = none → k ∉ keysOf body := by
  intro h hk
  rcases hlk : lookupKey body k with _ | v
  · exact ((lookupKey_eq_none_iff body k).mp hlk) hk
  · have hv := hdef (k, v) (lookupKey_mem body k v hlk)
    rw [jsGet, hlk] at h
    cases v with
    | none => exact hv rfl
    | some w => cases h

/-- C10: a successful dish update at found index `i` keeps the dish list's
length and order, leaves every other dish untouched and the updated dish's
id unchanged, and replaces exactly the fields present in the (JSON)
payload, the rest keeping their previous values. -/
theorem c10_dish_update_frame (dishes : List Dish) (i : ℕ) (body : Payload)
    (hi : i < dishes.length) (hdef : definedPayload body) :
    (updateDishList dishes i body).length = dishes.length ∧
    (∀ j, j ≠ i → (updateDishList dishes i body).get? j = dishes.get? j) ∧
    (∃ d d2,
      dishes.get? i = some d ∧
      (updateDishList dishes i body).get? i = some d2 ∧
      d2.id = d.id ∧
      (∀ s, jsGet body "name" = some (.str s) → d2.name = s) ∧
      (jsGet body "name" = none → d2.name = d.name) ∧
      (∀ s, jsGet body "description" = some (.str s) → d2.description = s) ∧
      (jsGet body "description" = none → d2.description = d.description) ∧
      (∀ q, jsGet body "price" = some (.num q) → d2.price = q) ∧
      (jsGet body "price" = none → d2.price = d.price)) := by
  obtain ⟨d, hd⟩ : ∃ d, dishes.get? i = some d := by
    rw [List.get?_eq_get hi]
    exact ⟨_, rfl⟩
  have hupd : updateDishList dishes i body = dishes.set i (applyDishUpdate d body) := by
    rw [updateDishList, hd]
  have hcontains_of_some : ∀ (k : String) (w : JsVal), jsGet body k = some w →
      (keysOf body).contains k = true := by
    intro k w h
    exact (scontains_iff _ _).mpr (mem_keys_of_jsGet_some body k w h)
  have hcontains_of_none : ∀ k : String, jsGet body k = none →
      (keysOf body).contains k = false := by
    intro k h
    cases hc : (keysOf body).contains k
    · rfl
    · exact absurd ((scontains_iff _ _).mp hc) (not_mem_keys_of_jsGet_none body hdef k h)
  refine ⟨?_, ?_, d, applyDishUpdate d body, hd, ?_, rfl, ?_, ?_, ?_, ?_, ?_, ?_⟩
  · rw [hupd]
    exact List.length_set dishes i _
  · intro j hj
    rw [hupd]
    exact List.get?_set_ne _ _ (fun hij => hj hij.symm)
  · rw [hupd]
    exact List.get?_set_eq_of_lt _ hi
  · intro s hs
    have hm : "name" ∈ keysOf body := mem_keys_of_jsGet_some body _ _ hs
    simp [applyDishUpdate, hm, hs, strOf]
  · intro hn
    have hm : "name" ∉ keysOf body := not_mem_keys_of_jsGet_none body hdef _ hn
    simp [applyDishUpdate, hm, hn, strOf]
  · intro s hs
    have hm : "description" ∈ keysOf body := mem_keys_of_jsGet_some body _ _ hs
    simp [applyDishUpdate, hm, hs, strOf]
  · intro hn
    have hm : "description" ∉ keysOf body := not_mem_keys_of_jsGet_none body hdef _ hn
    simp [applyDishUpdate, hm, hn, strOf]
  · intro q hq
    have hm : "price" ∈ keysOf body := mem_keys_of_jsGet_some body _ _ hq
    simp [applyDishUpdate, hm, hq]
  · intro hn
    have hm : "price" ∉ keysOf body := not_mem_keys_of_jsGet_none body hdef _ hn
    simp [applyDishUpdate, hm, hn]

/-- Witness for C10: updating dish 0 of `sampleRestaurant3` with a payload
carrying only `price := 3` keeps the list length, the id and the name, and
replaces the price. -/
theorem c10_witness :
    (updateDishList sampleRestaurant3.dishes 0 [("price", some (.num 3))]).length
      = sampleRestaurant3.dishes.length ∧
    ∃ d d2,
      sampleRestaurant3.dishes.get? 0 = some d ∧
      (updateDishList sampleRestaurant3.dishes 0 [("price", some (.num 3))]).get? 0 = some d2 ∧
      d2.id = d.id ∧ d2.name = d.name ∧ d2.price = 3 := by
  have h := c10_dish_update_frame sampleRestaurant3.dishes 0 [("price", some (.num 3))]
    (by decide) (by intro kv hkv; simp at hkv; subst hkv; simp)
  obtain ⟨hlen, -, d, d2, hd, hd2, hid, -, hname, -, -, hprice, -⟩ := h
  exact ⟨hlen, d, d2, hd, hd2, hid, hname rfl, hprice 3 rfl⟩

/-! ### C6: unrecognized body fields -/

/-- C6 counterexample: the rating payload `extraFieldRatingBody` carries the
key "someExtraField", which the property classifier reports as unrecognized
for the rating operation; POST /ratings nevertheless accepts the request
(it never runs the classifier), responds 200, and the rating row is
written. -/
theorem c6_counterexample :
    findUnrecognized extraFieldRatingBody ["restaurantId", "rating"] []
      = ["someExtraField"] ∧
    (ratingsPostHandler extraFieldRatingBody allOk sampleDB).1 = 200 ∧
    (ratingsPostHandler extraFieldRatingBody allOk sampleDB).2.ratings = [⟨1, 3⟩] := by
  refine ⟨by decide, by decide, by decide⟩

/-- An unrecognized key certifies the body has at least one key. -/
theorem keys_ne_nil_of_unrecognized (body : Payload) (A F : List String)
    (h : findUnrecognized body A F ≠ []) : keysOf body ≠ [] := by
  intro hk
  apply h
  rw [findUnrecognized, hk]
  rfl

/-- C6 amended: for restaurant creation and update, dish creation and
update, and order creation, a payload passing the operation's earlier
checks (no missing required field on creation, no forbidden field, and a
valid id where one is checked first) but containing an unrecognized key is
rejected with 400 and no write occurs; rating creation performs no such
check (see the counterexample). -/
theorem c6_amended_unrecognized :
    (∀ (body : Payload) (db : DB),
      findMissing body restaurantAllowedProps = [] →
      findForbidden body restaurantForbiddenProps = [] →
      findUnrecognized body restaurantAllowedProps restaurantForbiddenProps ≠ [] →
      postRestaurantPipeline body db = (400, db)) ∧
    (∀ (idStr : String) (body : Payload) (db : DB) (r : Restaurant),
      validateIdParam idStr db = .ok r →
      findForbidden body restaurantForbiddenProps = [] →
      findUnrecognized body restaurantAllowedProps restaurantForbiddenProps ≠ [] →
      putRestaurantPipeline idStr body db = (400, db)) ∧
    (∀ (idStr : String) (body : Payload) (db : DB) (r : Restaurant),
      validateIdParam idStr db = .ok r →
      findMissing body dishAllowedProps = [] →
      findForbidden body dishForbiddenProps = [] →
      findUnrecognized body dishAllowedProps dishForbiddenProps ≠ [] →
      postDishPipeline idStr body db = (400, db)) ∧
    (∀ (idStr dishId : String) (body : Payload) (db : DB) (r : Restaurant),
      validateIdParam idStr db = .ok r →
      findForbidden body dishForbiddenProps = [] →
      findUnrecognized body dishAllowedProps dishForbiddenProps ≠ [] →
      putDishPipeline idStr dishId body db = (400, db)) ∧
    (∀ (body : Payload) (db : DB),
      validateIdInReqBody body db = none →
      findMissing body orderAllowedProps = [] →
      findForbidden body orderForbiddenProps = [] →
      findUnrecognized body orderAllowedProps orderForbiddenProps ≠ [] →
      postOrderPipeline body db = (400, db)) := by
  refine ⟨?_, ?_, ?_, ?_, ?_⟩
  · intro body db hmiss hforb hunrec
    have hv : validateRestaurantReqBody .post body = .stop 400 := by
      rw [validateRestaurantReqBody, if_neg (by simp), if_neg (by simp [hmiss]),
        if_neg (by simp [hforb]), if_pos hunrec]
    simp [postRestaurantPipeline, hv]
  · intro idStr body db r hok hforb hunrec
    have hv : validateRestaurantReqBody .put body = .stop 400 := by
      rw [validateRestaurantReqBody,
        if_neg (fun hc => keys_ne_nil_of_unrecognized body _ _ hunrec hc.2),
        if_neg (by simp), if_neg (by simp [hforb]), if_pos hunrec]
    simp [putRestaurantPipeline, hok, hv]
  · intro idStr body db r hok hmiss hforb hunrec
    have hv : validateDishReqBody .post body = .stop 400 := by
      rw [validateDishReqBody, if_neg (by simp), if_neg (by simp [hmiss]),
        if_neg (by simp [hforb]), if_pos hunrec]
    simp [postDishPipeline, hok, hv]
  · intro idStr dishId body db r hok hforb hunrec
    have hv : validateDishReqBody .put body = .stop 400 := by
      rw [validateDishReqBody,
        if_neg (fun hc => keys_ne_nil_of_unrecognized body _ _ hunrec hc.2),
        if_neg (by simp), if_neg (by simp [hforb]), if_pos hunrec]
    simp [putDishPipeline, hok, hv]
  · intro body db hmw hmiss hforb hunrec
    have hv : validateOrderReqBody body = .stop 400 := by
      rw [validateOrderReqBody, if_neg (by simp [hmiss]), if_neg (by simp [hforb]),
        if_pos hunrec]
    simp [postOrderPipeline, hmw, hv]

/-- Witness for C6 at concrete payloads each carrying the extra key "zz":
all five covered operations reject with 400 and leave `sampleDB` unchanged. -/
theorem c6_witness :
    postRestaurantPipeline [("name", some (.str "A")), ("isKosher", some (.boolean true)),
        ("cuisines", some (.arr [.str "T"])), ("zz", some (.num 1))] sampleDB
      = (400, sampleDB) ∧
    putRestaurantPipeline "1" [("name", some (.str "A")), ("zz", some (.num 1))] sampleDB
      = (400, sampleDB) ∧
    postDishPipeline "1" [("name", some (.str "A")), ("description", some (.str "d")),
        ("price", some (.num 1)), ("zz", some (.num 1))] sampleDB = (400, sampleDB) ∧
    putDishPipeline "1" "1" [("price", some (.num 1)), ("zz", some (.num 1))] sampleDB
      = (400, sampleDB) ∧
    postOrderPipeline [("restaurantId", some (.num 1)), ("orderItems", some (.arr [])),
        ("zz", some (.num 1))] sampleDB = (400, sampleDB) := by
  refine ⟨?_, ?_, ?_, ?_, ?_⟩
  · exact c6_amended_unrecognized.1 _ sampleDB (by decide) (by decide) (by decide)
  · exact c6_amended_unrecognized.2.1 "1" _ sampleDB sampleRestaurant (by decide) (by decide)
      (by decide)
  · exact c6_amended_unrecognized.2.2.1 "1" _ sampleDB sampleRestaurant (by decide) (by decide)
      (by decide) (by decide)
  · exact c6_amended_unrecognized.2.2.2.1 "1" "1" _ sampleDB sampleRestaurant (by decide)
      (by decide) (by decide)
  · exact c6_amended_unrecognized.2.2.2.2 _ sampleDB (by decide) (by decide) (by decide)
      (by decide)

/-! ### C5: price rounding over the binary64 model -/

theorem pow2_pos (e : ℤ) : 0 < pow2 e := by
  rw [pow2]
  split
  · positivity
  · positivity

theorem qfloor_nonneg (x : ℚ) (h : 0 ≤ x) : 0 ≤ qfloor x := by
  rw [qfloor]
  exact Int.floor_nonneg.mpr h

theorem roundNearestEven_nonneg (x : ℚ) (h : 0 ≤ x) : 0 ≤ roundNearestEven x := by
  have hf := qfloor_nonneg x h
  rw [roundNearestEven]
  split
  · exact hf
  · split
    · omega
    · split
      · exact hf
      · omega

theorem flPos_nonneg (q : ℚ) (h : 0 ≤ q) : 0 ≤ flPos q := by
  rw [flPos]
  have harg : (0 : ℚ) ≤ q * pow2 (52 - floorLog2Q q) :=
    mul_nonneg h (pow2_pos _).le
  have hm := roundNearestEven_nonneg _ harg
  have : (0 : ℚ) ≤ (roundNearestEven (q * pow2 (52 - floorLog2Q q)) : ℚ) := by
    exact_mod_cast hm
  exact mul_nonneg this (pow2_pos _).le

theorem fl_nonneg (q : ℚ) (h : 0 ≤ q) : 0 ≤ fl q := by
  rw [fl]
  split
  · exact le_refl 0
  · split
    · exact flPos_nonneg q h
    · rename_i h0 hpos
      exact absurd (lt_of_le_of_ne h (fun he => h0 he.symm)) hpos

theorem pow2_47 : pow2 47 = ((140737488355328 : ℕ) : ℚ) := by
  rw [pow2, if_pos (by norm_num)]
  have h : ((47 : ℤ).toNat) = 47 := rfl
  rw [h]
  norm_num

theorem pow2_neg_47 : pow2 (-47) = ((140737488355328 : ℕ) : ℚ)⁻¹ := by
  rw [pow2, if_neg (by norm_num)]
  have h : ((-(-47 : ℤ)).toNat) = 47 := rfl
  rw [h]
  norm_num

theorem pow2_40 : pow2 40 = ((1099511627776 : ℕ) : ℚ) := by
  rw [pow2, if_pos (by norm_num)]
  have h : ((40 : ℤ).toNat) = 40 := rfl
  rw [h]
  norm_num

theorem pow2_neg_40 : pow2 (-40) = ((1099511627776 : ℕ) : ℚ)⁻¹ := by
  rw [pow2, if_neg (by norm_num)]
  have h : ((-(-40 : ℤ)).toNat) = 40 := rfl
  rw [h]
  norm_num

/-- The binary64 value of the literal `59.005`: the scaled significand
`59.005·2⁴⁷ = 8304215500406128.64` rounds up, so the stored double is
`8304215500406129·2⁻⁴⁷ = 59.00500000000000255795…`. -/
theorem fl_59005 : fl (59005 / 1000) = 8304215500406129 / 140737488355328 := by
  rw [fl, if_neg (by norm_num), if_pos (by norm_num), flPos]
  have hlog : floorLog2Q (59005 / 1000 : ℚ) = 5 := by
    rw [floorLog2Q, if_pos (by norm_num)]
    have hf : qfloor (59005 / 1000 : ℚ) = 59 := by
      rw [qfloor]
      norm_num
    rw [hf]
    decide
  rw [hlog]
  norm_num
  rw [pow2_47, pow2_neg_47]
  have harg : (11801 / 200 : ℚ) * ((140737488355328 : ℕ) : ℚ) = 207605387510153216 / 25 := by
    norm_num
  rw [harg]
  have hrne : roundNearestEven (207605387510153216 / 25 : ℚ) = 8304215500406129 := by
    have hf2 : qfloor (207605387510153216 / 25 : ℚ) = 8304215500406128 := by
      rw [qfloor]
      norm_num
    rw [roundNearestEven, hf2, if_neg (by norm_num), if_pos (by norm_num)]
    norm_num
  rw [hrne]
  norm_num

/-- The binary64 product `59.005 * 100`: the exact product is
`5900.500000000000255…`, whose scaled significand `…288.28125` rounds down
to a multiple of the ulp — the product is represented as exactly `5900.5`. -/
theorem jsMul_59005_100 : jsMul double59005 100 = 11801 / 2 := by
  rw [double59005, fl_59005, jsMul]
  have hprod : (8304215500406129 / 140737488355328 : ℚ) * 100
      = 207605387510153225 / 35184372088832 := by
    norm_num
  rw [hprod, fl, if_neg (by norm_num), if_pos (by norm_num), flPos]
  have hlog : floorLog2Q (207605387510153225 / 35184372088832 : ℚ) = 12 := by
    rw [floorLog2Q, if_pos (by norm_num)]
    have hf : qfloor (207605387510153225 / 35184372088832 : ℚ) = 5900 := by
      rw [qfloor]
      norm_num
    rw [hf]
    decide
  rw [hlog]
  norm_num
  rw [pow2_40, pow2_neg_40]
  have harg : (207605387510153225 / 35184372088832 : ℚ) * ((1099511627776 : ℕ) : ℚ)
      = 207605387510153225 / 32 := by
    norm_num
  rw [harg]
  have hrne : roundNearestEven (207605387510153225 / 32 : ℚ) = 6487668359692288 := by
    have hf2 : qfloor (207605387510153225 / 32 : ℚ) = 6487668359692288 := by
      rw [qfloor]
      norm_num
    rw [roundNearestEven, hf2, if_pos (by norm_num)]
  rw [hrne]
  norm_num

/-- The binary64 value of `59.01` (= `Math.round(5900.5)/100` exactly):
`8304919187847905·2⁻⁴⁷`. -/
theorem fl_5901_100 : fl (5901 / 100) = 8304919187847905 / 140737488355328 := by
  rw [fl, if_neg (by norm_num), if_pos (by norm_num), flPos]
  have hlog : floorLog2Q (5901 / 100 : ℚ) = 5 := by
    rw [floorLog2Q, if_pos (by norm_num)]
    have hf : qfloor (5901 / 100 : ℚ) = 59 := by
      rw [qfloor]
      norm_num
    rw [hf]
    decide
  rw [hlog]
  norm_num
  rw [pow2_47, pow2_neg_47]
  have harg : (5901 / 100 : ℚ) * ((140737488355328 : ℕ) : ℚ) = 207622979696197632 / 25 := by
    norm_num
  rw [harg]
  have hrne : roundNearestEven (207622979696197632 / 25 : ℚ) = 8304919187847905 := by
    have hf2 : qfloor (207622979696197632 / 25 : ℚ) = 8304919187847905 := by
      rw [qfloor]
      norm_num
    rw [roundNearestEven, hf2, if_pos (by norm_num)]
  rw [hrne]
  norm_num

/-- The full `roundToDp(59.005, 2)` evaluation: `Math.round(5900.5) = 5901`
(ties toward `+∞`), and `5901/100` is stored as the double nearest `59.01`. -/
theorem roundToDp_59005 : roundToDp double59005 2 = 8304919187847905 / 140737488355328 := by
  rw [roundToDp]
  have h10 : ((10 : ℚ) ^ (2 : ℕ)) = 100 := by norm_num
  rw [h10, jsMul_59005_100]
  have hround : jsRound (11801 / 2 : ℚ) = 5901 := by
    rw [jsRound]
    have : qfloor (11801 / 2 + 1 / 2 : ℚ) = 5901 := by
      rw [qfloor]
      norm_num
    rw [this]
    norm_num
  rw [hround, jsDiv]
  have : ((5901 : ℚ) / 100) = (5901 / 100 : ℚ) := by norm_num
  rw [this, fl_5901_100]

/-- C5 counterexample: `59.005 * 100` is NOT represented below `5900.5` —
the binary64 product is exactly `5900.5` (the stored `59.005` is
`59.005000000000002557…`, and the scaled product rounds down onto the
representable `5900.5`), so `Math.round` gives `5901` and
`roundToDp(59.005, 2)` is the double nearest `59.01`, not `59`. -/
theorem c5_counterexample :
    jsMul double59005 100 = 11801 / 2 ∧
    roundToDp double59005 2 = 8304919187847905 / 140737488355328 ∧
    roundToDp double59005 2 ≠ 59 := by
  refine ⟨jsMul_59005_100, roundToDp_59005, ?_⟩
  rw [roundToDp_59005]
  norm_num

/-- C5 amended: for every non-negative `p`, `roundToDp(p, 2)` is `p`
multiplied by 100 in binary64, rounded to the nearest integer with ties
half away from zero (`Math.round`'s ties-toward-`+∞` coincides with it on
non-negative values), then divided by 100 in binary64; at `p = 59.005` the
product is exactly `5900.5`, so the result is the double nearest `59.01`. -/
theorem c5_round_to_dp :
    (∀ p : ℚ, 0 ≤ p →
      roundToDp p 2 = jsDiv ((roundHalfAwayFromZero (jsMul p 100) : ℤ) : ℚ) 100) ∧
    roundToDp double59005 2 = fl (5901 / 100) := by
  constructor
  · intro p hp
    rw [roundToDp]
    have h10 : ((10 : ℚ) ^ (2 : ℕ)) = 100 := by norm_num
    rw [h10]
    have hx : 0 ≤ jsMul p 100 := fl_nonneg _ (mul_nonneg hp (by norm_num))
    rw [jsRound, roundHalfAwayFromZero, if_pos hx]
  · rw [roundToDp_59005, fl_5901_100]

/-- Witness for C5 at `p = 3`. -/
theorem c5_witness :
    (0 : ℚ) ≤ 3 ∧
    roundToDp 3 2 = jsDiv ((roundHalfAwayFromZero (jsMul 3 100) : ℤ) : ℚ) 100 :=
  ⟨by norm_num, c5_round_to_dp.1 3 (by norm_num)⟩

end Bisbis
